import Mathlib

/-!
Shallow embedding of the cqrs event infrastructure (events.go):
the map-based versioned event dispatcher, the dispatch manager's
listen loop, and the in-memory event bus with its publish/receive
handshake, together with theorems settling the specification claims.
-/

namespace Cqrs

/-- Go errors are modelled as `Option GoErr`: `none` is the nil error. -/
abbrev GoErr := String

/-- The dynamic payload stored in the `Event interface{}` field.  `tag`
stands for the payload's runtime type (what `reflect.TypeOf` inspects)
and `data` for its value. -/
structure Payload where
  tag : Nat
  data : Nat
deriving DecidableEq, Repr

/-- VersionedEvent (events.go lines 14-22). -/
structure VersionedEvent where
  id : String
  correlationID : String
  sourceID : String
  version : Int
  eventType : String
  created : Nat
  event : Payload
deriving DecidableEq, Repr

/-- VersionedEventHandler (events.go line 85): a function from a
versioned event to a Go error. -/
abbrev VersionedEventHandler := VersionedEvent → Option GoErr

/-- MapBasedVersionedEventDispatcher (events.go lines 79-82).  The Go
map from `reflect.Type` to handler lists is modelled as an association
list keyed by the payload type tag; the dispatcher only ever accesses it
through single-key lookup, so map iteration order is irrelevant. -/
structure MapBasedVersionedEventDispatcher where
  registry : List (Nat × List VersionedEventHandler)
  globalHandlers : List VersionedEventHandler

/-- Map lookup `m.registry[eventType]`. -/
def registryLookup : List (Nat × List VersionedEventHandler) → Nat →
    Option (List VersionedEventHandler)
  | [], _ => none
  | (t, hs) :: rest, tag => if t = tag then some hs else registryLookup rest tag

/-- Map update used by RegisterEventHandler: append a handler to the
entry for `tag` (which is known to exist). -/
def registryAppend : List (Nat × List VersionedEventHandler) → Nat →
    VersionedEventHandler → List (Nat × List VersionedEventHandler)
  | [], _, _ => []
  | (t, hs) :: rest, tag, h =>
    if t = tag then (t, hs ++ [h]) :: rest else (t, hs) :: registryAppend rest tag h

/-- NewVersionedEventDispatcher (events.go lines 88-91). -/
def newVersionedEventDispatcher : MapBasedVersionedEventDispatcher :=
  { registry := [], globalHandlers := [] }

/-- RegisterEventHandler (events.go lines 94-102): append the handler to
the existing list for the event type, or create a singleton list. -/
def registerEventHandler (m : MapBasedVersionedEventDispatcher) (tag : Nat)
    (h : VersionedEventHandler) : MapBasedVersionedEventDispatcher :=
  match registryLookup m.registry tag with
  | some _ => { m with registry := registryAppend m.registry tag h }
  | none => { m with registry := m.registry ++ [(tag, [h])] }

/-- RegisterGlobalHandler (events.go lines 105-107). -/
def registerGlobalHandler (m : MapBasedVersionedEventDispatcher)
    (h : VersionedEventHandler) : MapBasedVersionedEventDispatcher :=
  { m with globalHandlers := m.globalHandlers ++ [h] }

/-- The handler loop inside DispatchEvent: run handlers in order and
stop at the first error. -/
def runHandlers : List VersionedEventHandler → VersionedEvent → Option GoErr
  | [], _ => none
  | h :: rest, e =>
    match h e with
    | some err => some err
    | none => runHandlers rest e

/-- DispatchEvent (events.go lines 110-127): run the type-specific
handlers for the payload's runtime type (if any are registered),
short-circuiting on the first error; if none errored, run the global
handlers the same way. -/
def dispatchEvent (m : MapBasedVersionedEventDispatcher) (e : VersionedEvent) :
    Option GoErr :=
  match
    (match registryLookup m.registry e.event.tag with
     | some handlers => runHandlers handlers e
     | none => none) with
  | some err => some err
  | none => runHandlers m.globalHandlers e

/-- Instrumented handler loop: also returns the positions (from `b`
upward) of the handlers actually invoked, in invocation order. -/
def runHandlersTraceFrom (b : Nat) :
    List VersionedEventHandler → VersionedEvent → List Nat × Option GoErr
  | [], _ => ([], none)
  | h :: rest, e =>
    match h e with
    | some err => ([b], some err)
    | none =>
      let p := runHandlersTraceFrom (b + 1) rest e
      (b :: p.1, p.2)

/-- Instrumented DispatchEvent: returns the positions of the invoked
type-specific handlers, the positions of the invoked global handlers,
and the returned error.  The control flow is exactly that of
`dispatchEvent`. -/
def dispatchEventTrace (m : MapBasedVersionedEventDispatcher)
    (e : VersionedEvent) : List Nat × List Nat × Option GoErr :=
  match registryLookup m.registry e.event.tag with
  | some handlers =>
    match runHandlersTraceFrom 0 handlers e with
    | (tis, some err) => (tis, [], some err)
    | (tis, none) =>
      let p := runHandlersTraceFrom 0 m.globalHandlers e
      (tis, p.1, p.2)
  | none =>
    let p := runHandlersTraceFrom 0 m.globalHandlers e
    ([], p.1, p.2)

/-- Position and error of the first handler in the list that errors on
`e`, if any. -/
def firstErrorIdx : List VersionedEventHandler → VersionedEvent →
    Option (Nat × GoErr)
  | [], _ => none
  | h :: rest, e =>
    match h e with
    | some err => some (0, err)
    | none => (firstErrorIdx rest e).map (fun p => (p.1 + 1, p.2))

theorem firstErrorIdx_eq_none_iff (hs : List VersionedEventHandler)
    (e : VersionedEvent) :
    firstErrorIdx hs e = none ↔ ∀ h ∈ hs, h e = none := by
  induction hs with
  | nil => simp [firstErrorIdx]
  | cons h rest ih =>
    simp only [firstErrorIdx]
    cases hhe : h e with
    | some err => simp [hhe]
    | none => simp [hhe, ih]

theorem runHandlersTraceFrom_of_no_error (hs : List VersionedEventHandler)
    (e : VersionedEvent) (hnone : firstErrorIdx hs e = none) :
    ∀ b, runHandlersTraceFrom b hs e = (List.range' b hs.length, none) ∧
      runHandlers hs e = none := by
  induction hs with
  | nil => intro b; simp [runHandlersTraceFrom, runHandlers]
  | cons h rest ih =>
    intro b
    simp only [firstErrorIdx] at hnone
    cases hhe : h e with
    | some err => simp [hhe] at hnone
    | none =>
      simp only [hhe] at hnone
      cases hrest : firstErrorIdx rest e with
      | some p => rw [hrest] at hnone; simp at hnone
      | none =>
        have := ih hrest (b + 1)
        simp [runHandlersTraceFrom, runHandlers, hhe, this.1, this.2,
          List.range'_succ]

theorem runHandlersTraceFrom_of_first_error (hs : List VersionedEventHandler)
    (e : VersionedEvent) :
    ∀ k err, firstErrorIdx hs e = some (k, err) →
    ∀ b, runHandlersTraceFrom b hs e = (List.range' b (k + 1), some err) ∧
      runHandlers hs e = some err := by
  induction hs with
  | nil => intro k err hfst; simp [firstErrorIdx] at hfst
  | cons h rest ih =>
    intro k err hfst b
    simp only [firstErrorIdx] at hfst
    cases hhe : h e with
    | some err0 =>
      simp only [hhe] at hfst
      obtain ⟨hk, herr⟩ : 0 = k ∧ err0 = err := by
        constructor <;> cases hfst <;> rfl
      subst hk; subst herr
      simp [runHandlersTraceFrom, runHandlers, hhe, List.range'_succ]
    | none =>
      simp only [hhe] at hfst
      cases hrest : firstErrorIdx rest e with
      | none => rw [hrest] at hfst; simp at hfst
      | some p =>
        rw [hrest] at hfst
        obtain ⟨k0, err0⟩ := p
        have h2 : (k0 + 1, err0) = (k, err) := Option.some.inj hfst
        have hk : k0 + 1 = k := congrArg Prod.fst h2
        have herr : err0 = err := congrArg Prod.snd h2
        subst hk; subst herr
        have := ih k0 err0 hrest (b + 1)
        simp [runHandlersTraceFrom, runHandlers, hhe, this.1, this.2,
          List.range'_succ]

theorem registryLookup_registryAppend
    (reg : List (Nat × List VersionedEventHandler)) (tag : Nat)
    (h : VersionedEventHandler) :
    registryLookup (registryAppend reg tag h) tag =
      (registryLookup reg tag).map (fun hs => hs ++ [h]) := by
  induction reg with
  | nil => simp [registryLookup, registryAppend]
  | cons p rest ih =>
    obtain ⟨t, hs⟩ := p
    by_cases ht : t = tag
    · subst ht; simp [registryLookup, registryAppend]
    · simp [registryLookup, registryAppend, ht, ih]

theorem registryLookup_append_new
    (reg : List (Nat × List VersionedEventHandler)) (tag : Nat)
    (h : VersionedEventHandler)
    (hnone : registryLookup reg tag = none) :
    registryLookup (reg ++ [(tag, [h])]) tag = some [h] := by
  induction reg with
  | nil => simp [registryLookup]
  | cons p rest ih =>
    obtain ⟨t, hs⟩ := p
    by_cases ht : t = tag
    · subst ht; simp [registryLookup] at hnone
    · rw [registryLookup, if_neg ht] at hnone
      rw [List.cons_append, registryLookup, if_neg ht]
      exact ih hnone

theorem registerEventHandler_lookup (m : MapBasedVersionedEventDispatcher)
    (tag : Nat) (h : VersionedEventHandler) :
    registryLookup (registerEventHandler m tag h).registry tag =
      some ((registryLookup m.registry tag).getD [] ++ [h]) := by
  unfold registerEventHandler
  cases hl : registryLookup m.registry tag with
  | some hs => simp [registryLookup_registryAppend, hl]
  | none => simp [registryLookup_append_new m.registry tag h hl, hl]

/-- A handler that always fails with a fixed error. -/
def failingHandler : VersionedEventHandler := fun _ => some "handler failure"

/-- A handler that always succeeds. -/
def succeedingHandler : VersionedEventHandler := fun _ => none

/-- Concrete event used to instantiate theorems. -/
def sampleEvent : VersionedEvent :=
  { id := "event-1", correlationID := "corr-1", sourceID := "source-1",
    version := 1, eventType := "SampleEvent", created := 0,
    event := { tag := 0, data := 0 } }

/-- Second concrete event. -/
def sampleEventB : VersionedEvent :=
  { id := "event-2", correlationID := "corr-1", sourceID := "source-1",
    version := 2, eventType := "SampleEvent", created := 1,
    event := { tag := 0, data := 1 } }

/-- C1: if the payload's runtime type has registered type-specific
handlers and the first of them that errors is handler `k` with error
`err`, then DispatchEvent returns `err`, only type-specific handlers
`0..k` were invoked (none after `k`), and no global handler was
invoked. -/
theorem dispatchEvent_typeError_skips_rest_and_globals
    (m : MapBasedVersionedEventDispatcher) (e : VersionedEvent)
    (hs : List VersionedEventHandler) (k : Nat) (err : GoErr)
    (hlook : registryLookup m.registry e.event.tag = some hs)
    (hfst : firstErrorIdx hs e = some (k, err)) :
    dispatchEvent m e = some err ∧
      dispatchEventTrace m e = (List.range (k + 1), [], some err) := by
  obtain ⟨htr, hrun⟩ := runHandlersTraceFrom_of_first_error hs e k err hfst 0
  refine ⟨?_, ?_⟩
  · simp [dispatchEvent, hlook, hrun]
  · simp [dispatchEventTrace, hlook, htr, List.range_eq_range']

/-- Witness for C1 at a concrete dispatcher: the first type handler
fails, the second type handler and the global handler are never
invoked. -/
theorem dispatchEvent_typeError_skips_rest_and_globals_witness :
    dispatchEvent
        { registry := [(0, [failingHandler, succeedingHandler])],
          globalHandlers := [succeedingHandler] } sampleEvent =
      some "handler failure" ∧
    dispatchEventTrace
        { registry := [(0, [failingHandler, succeedingHandler])],
          globalHandlers := [succeedingHandler] } sampleEvent =
      (List.range 1, [], some "handler failure") :=
  dispatchEvent_typeError_skips_rest_and_globals _ sampleEvent
    [failingHandler, succeedingHandler] 0 "handler failure" rfl rfl

/-- C4: when no type-specific handler errors, all type-specific handlers
for the payload's type run in registration order, then the global
handlers run in registration order; with zero type-specific handlers
registered only the global handlers run; the first failing global
handler aborts the remaining globals and its error is returned;
registration appends handlers, preserving registration order. -/
theorem dispatchEvent_order_and_globals
    (m : MapBasedVersionedEventDispatcher) (e : VersionedEvent) :
    (∀ hs, registryLookup m.registry e.event.tag = some hs →
      firstErrorIdx hs e = none →
        ((firstErrorIdx m.globalHandlers e = none →
          dispatchEvent m e = none ∧
          dispatchEventTrace m e =
            (List.range hs.length, List.range m.globalHandlers.length, none)) ∧
         (∀ k err, firstErrorIdx m.globalHandlers e = some (k, err) →
          dispatchEvent m e = some err ∧
          dispatchEventTrace m e =
            (List.range hs.length, List.range (k + 1), some err)))) ∧
    (registryLookup m.registry e.event.tag = none →
      ((firstErrorIdx m.globalHandlers e = none →
        dispatchEvent m e = none ∧
        dispatchEventTrace m e =
          ([], List.range m.globalHandlers.length, none)) ∧
       (∀ k err, firstErrorIdx m.globalHandlers e = some (k, err) →
        dispatchEvent m e = some err ∧
        dispatchEventTrace m e = ([], List.range (k + 1), some err)))) ∧
    (∀ tag h, registryLookup (registerEventHandler m tag h).registry tag =
        some ((registryLookup m.registry tag).getD [] ++ [h]) ∧
      (registerGlobalHandler m h).globalHandlers = m.globalHandlers ++ [h]) := by
  refine ⟨?_, ?_, ?_⟩
  · intro hs hlook hnone
    obtain ⟨htr, hrun⟩ := runHandlersTraceFrom_of_no_error hs e hnone 0
    constructor
    · intro hgnone
      obtain ⟨hgtr, hgrun⟩ :=
        runHandlersTraceFrom_of_no_error m.globalHandlers e hgnone 0
      refine ⟨?_, ?_⟩
      · simp [dispatchEvent, hlook, hrun, hgrun]
      · simp [dispatchEventTrace, hlook, htr, hgtr, List.range_eq_range']
    · intro k err hgfst
      obtain ⟨hgtr, hgrun⟩ :=
        runHandlersTraceFrom_of_first_error m.globalHandlers e k err hgfst 0
      refine ⟨?_, ?_⟩
      · simp [dispatchEvent, hlook, hrun, hgrun]
      · simp [dispatchEventTrace, hlook, htr, hgtr, List.range_eq_range']
  · intro hlook
    constructor
    · intro hgnone
      obtain ⟨hgtr, hgrun⟩ :=
        runHandlersTraceFrom_of_no_error m.globalHandlers e hgnone 0
      refine ⟨?_, ?_⟩
      · simp [dispatchEvent, hlook, hgrun]
      · simp [dispatchEventTrace, hlook, hgtr, List.range_eq_range']
    · intro k err hgfst
      obtain ⟨hgtr, hgrun⟩ :=
        runHandlersTraceFrom_of_first_error m.globalHandlers e k err hgfst 0
      refine ⟨?_, ?_⟩
      · simp [dispatchEvent, hlook, hgrun]
      · simp [dispatchEventTrace, hlook, hgtr, List.range_eq_range']
  · intro tag h
    exact ⟨registerEventHandler_lookup m tag h, rfl⟩

/-- Witness for C4 at a concrete dispatcher: one succeeding type
handler, then two global handlers of which the second fails, so the
trace is type handler 0, then globals 0 and 1, with global 1's error
returned. -/
theorem dispatchEvent_order_and_globals_witness :
    dispatchEvent
        { registry := [(0, [succeedingHandler])],
          globalHandlers := [succeedingHandler, failingHandler] } sampleEvent =
      some "handler failure" ∧
    dispatchEventTrace
        { registry := [(0, [succeedingHandler])],
          globalHandlers := [succeedingHandler, failingHandler] } sampleEvent =
      (List.range 1, List.range 2, some "handler failure") :=
  ((dispatchEvent_order_and_globals
      { registry := [(0, [succeedingHandler])],
        globalHandlers := [succeedingHandler, failingHandler] }
      sampleEvent).1 [succeedingHandler] rfl rfl).2 1 "handler failure" rfl

/-- One iteration of the select statement in
VersionedEventDispatchManager.Listen (events.go lines 162-186) fires on
one of three channels: a received event, the stop signal, or the error
channel. -/
inductive ListenInput where
  | receivedEvent (e : VersionedEvent)
  | stop
  | errorReceived (err : GoErr)
deriving DecidableEq, Repr

/-- Observable behaviour of a Listen loop run: the events handed to the
dispatcher in order, the acknowledgments sent on the per-item
ProcessedSuccessfully channels in order, the dispatch errors logged in
order, and `some r` once the loop has returned `r` (or `none` while it
is still waiting for more channel activity). -/
structure ListenTrace where
  dispatched : List VersionedEvent
  acks : List Bool
  logged : List GoErr
  result : Option (Option GoErr)
deriving DecidableEq, Repr

/-- The Listen select loop (events.go lines 162-186) applied to the
sequence of channel firings `inputs`.  On a received event it dispatches,
logs a dispatch error if any, sends `true` on the item's acknowledgment
channel, and keeps looping; on the stop signal it sends a close request
and returns the close handshake's reply `closeReply`; on an error from
the error channel it returns that error. -/
def listenRun (m : MapBasedVersionedEventDispatcher) (closeReply : Option GoErr) :
    List ListenInput → ListenTrace
  | [] => { dispatched := [], acks := [], logged := [], result := none }
  | ListenInput.receivedEvent ev :: rest =>
    let t := listenRun m closeReply rest
    { dispatched := ev :: t.dispatched,
      acks := true :: t.acks,
      logged := (match dispatchEvent m ev with
                 | some err => [err]
                 | none => []) ++ t.logged,
      result := t.result }
  | ListenInput.stop :: _ =>
    { dispatched := [], acks := [], logged := [], result := some closeReply }
  | ListenInput.errorReceived err :: _ =>
    { dispatched := [], acks := [], logged := [], result := some (some err) }

/-- InMemoryEventBus (events.go lines 191-194).  The unbuffered channel
has no buffer to represent; publish/receive synchronisation is modelled
by the transition systems below, so the persistent state is the
`startReceiving` flag. -/
structure InMemoryEventBus where
  startReceiving : Bool
deriving DecidableEq, Repr

/-- NewInMemoryEventBus (events.go lines 197-200). -/
def newInMemoryEventBus : InMemoryEventBus := { startReceiving := false }

/-- PublishEvents (events.go lines 203-213), as a function from the bus
state and the batch to the resulting bus state, the returned Go error,
and the sequence of values sent on the published-events channel.  With
`startReceiving` false it returns nil at once, sending nothing and
leaving the bus unchanged. -/
def publishEvents (bus : InMemoryEventBus) (events : List VersionedEvent) :
    InMemoryEventBus × Option GoErr × List VersionedEvent :=
  if bus.startReceiving = false then (bus, none, [])
  else (bus, none, events)

/-- The immediate effect of ReceiveEvents (events.go lines 216-233) in
the calling thread: set `startReceiving` and return nil.  The spawned
goroutine is modelled by the transition systems below. -/
def receiveEvents (bus : InMemoryEventBus) : InMemoryEventBus × Option GoErr :=
  ({ startReceiving := true }, none)

/-- Listen (events.go lines 146-187): if the receiver's ReceiveEvents
call returns an error, return it at once; otherwise enter the select
loop. -/
def listen (recvResult : Option GoErr) (m : MapBasedVersionedEventDispatcher)
    (closeReply : Option GoErr) (inputs : List ListenInput) : ListenTrace :=
  match recvResult with
  | some err => { dispatched := [], acks := [], logged := [], result := some (some err) }
  | none => listenRun m closeReply inputs

theorem listenRun_result_cases (m : MapBasedVersionedEventDispatcher)
    (closeReply : Option GoErr) :
    ∀ inputs r, (listenRun m closeReply inputs).result = some r →
      (r = closeReply ∧ ListenInput.stop ∈ inputs) ∨
      (∃ e, r = some e ∧ ListenInput.errorReceived e ∈ inputs) := by
  intro inputs
  induction inputs with
  | nil => intro r hr; simp [listenRun] at hr
  | cons i rest ih =>
    intro r hr
    cases i with
    | receivedEvent ev =>
      simp only [listenRun] at hr
      rcases ih r hr with ⟨h1, h2⟩ | ⟨e, h1, h2⟩
      · exact Or.inl ⟨h1, List.mem_cons_of_mem _ h2⟩
      · exact Or.inr ⟨e, h1, List.mem_cons_of_mem _ h2⟩
    | stop =>
      simp only [listenRun] at hr
      exact Or.inl ⟨(Option.some.inj hr).symm, List.mem_cons_self _ _⟩
    | errorReceived e =>
      simp only [listenRun] at hr
      exact Or.inr ⟨e, (Option.some.inj hr).symm, List.mem_cons_self _ _⟩

/-- C5: when the dispatcher errors on a received event, the Listen loop
logs that error, still sends `true` on the item's acknowledgment channel
before servicing anything else, dispatches the item exactly once, and
carries on processing the remaining channel activity exactly as it
would have (in particular it does not terminate because of the
dispatch error). -/
theorem listen_dispatchError_logs_acks_continues
    (m : MapBasedVersionedEventDispatcher) (closeReply : Option GoErr)
    (ev : VersionedEvent) (err : GoErr) (rest : List ListenInput)
    (hd : dispatchEvent m ev = some err) :
    listenRun m closeReply (ListenInput.receivedEvent ev :: rest) =
      { dispatched := ev :: (listenRun m closeReply rest).dispatched,
        acks := true :: (listenRun m closeReply rest).acks,
        logged := err :: (listenRun m closeReply rest).logged,
        result := (listenRun m closeReply rest).result } := by
  simp [listenRun, hd]

/-- Witness for C5: a failing handler's event is dispatched once,
logged, acknowledged with `true`, and the loop is still running. -/
theorem listen_dispatchError_logs_acks_continues_witness :
    listenRun { registry := [(0, [failingHandler])], globalHandlers := [] }
        none [ListenInput.receivedEvent sampleEvent] =
      { dispatched := [sampleEvent], acks := [true],
        logged := ["handler failure"], result := none } := by
  rw [listen_dispatchError_logs_acks_continues
    { registry := [(0, [failingHandler])], globalHandlers := [] }
    none sampleEvent "handler failure" [] rfl]
  rfl

/-- C6: an error received on the Listen loop's error channel makes the
loop return exactly that error immediately: nothing further is
dispatched, acknowledged or logged, whatever the error is and whatever
other channel activity would have followed. -/
theorem listen_transportError_terminates
    (m : MapBasedVersionedEventDispatcher) (closeReply : Option GoErr)
    (err : GoErr) (rest : List ListenInput) :
    listenRun m closeReply (ListenInput.errorReceived err :: rest) =
      { dispatched := [], acks := [], logged := [],
        result := some (some err) } := rfl

/-- C9: publishing on a bus on which ReceiveEvents has never been called
returns nil, sends nothing on the published-events channel, and leaves
the bus state unchanged, so the batch is dropped for good. -/
theorem publishEvents_noReceiver_drops (bus : InMemoryEventBus)
    (events : List VersionedEvent) (h : bus.startReceiving = false) :
    publishEvents bus events = (bus, none, []) := by
  simp [publishEvents, h]

/-- Witness for C9 on a freshly constructed bus. -/
theorem publishEvents_noReceiver_drops_witness :
    publishEvents newInMemoryEventBus [sampleEvent, sampleEventB] =
      (newInMemoryEventBus, none, []) :=
  publishEvents_noReceiver_drops newInMemoryEventBus [sampleEvent, sampleEventB]
    rfl

/-- C10: InMemoryEventBus.ReceiveEvents returns nil for every bus, so
Listen run against the in-memory bus never takes its receiver start-up
error branch and behaves exactly as the select loop; consequently a
Listen return value can only arise from the stop signal (yielding the
close handshake's reply) or from the error channel (yielding the
received error). -/
theorem listen_inMemory_no_startup_error (bus : InMemoryEventBus)
    (m : MapBasedVersionedEventDispatcher) (closeReply : Option GoErr)
    (inputs : List ListenInput) (r : Option GoErr) :
    (receiveEvents bus).2 = none ∧
    listen (receiveEvents bus).2 m closeReply inputs =
      listenRun m closeReply inputs ∧
    ((listenRun m closeReply inputs).result = some r →
      (r = closeReply ∧ ListenInput.stop ∈ inputs) ∨
      (∃ e, r = some e ∧ ListenInput.errorReceived e ∈ inputs)) :=
  ⟨rfl, rfl, listenRun_result_cases m closeReply inputs r⟩

/-- Witness for C10: a stopped run returns the close reply via the stop
branch. -/
theorem listen_inMemory_no_startup_error_witness :
    ((none : Option GoErr) = none ∧ ListenInput.stop ∈ [ListenInput.stop]) ∨
    (∃ e, (none : Option GoErr) = some e ∧
      ListenInput.errorReceived e ∈ [ListenInput.stop]) :=
  (listen_inMemory_no_startup_error newInMemoryEventBus
    newVersionedEventDispatcher none [ListenInput.stop] none).2.2 rfl

/-- Program counter of the ReceiveEvents goroutine (events.go lines
219-230): at the select; holding an event received from the
published-events channel (together with the number of close replies the
loop had sent when the publisher's send completed); blocked on the
acknowledgment channel of a delivered event; or about to reply nil to a
close request. -/
inductive LoopState where
  | select
  | deliver (e : VersionedEvent) (tag : Nat)
  | waitAck
  | closeReply
deriving DecidableEq, Repr

/-- Joint configuration of one PublishEvents caller (events.go lines
203-213), the ReceiveEvents goroutine, and a ghost record of the
rendezvous completed so far.  All channels are unbuffered, so each
channel operation is a joint step of its two endpoints.

  `pubQueue` — events the publisher still has to send on the
  published-events channel; PublishEvents has returned exactly when it
  is empty, since after the last send the function returns without
  further synchronisation.
  `closesPending` — close requests the environment will still make.
  `delivered` — events whose send on options.ReceiveEvent completed, in
  order, each tagged with the close-reply count at the moment the
  publisher's send of that event completed.
  `acked` — number of completed acknowledgment rendezvous.
  `closeReplies` — number of close replies sent. -/
structure BusConfig where
  pubQueue : List VersionedEvent
  bus : LoopState
  closesPending : Nat
  delivered : List (VersionedEvent × Nat)
  acked : Nat
  closeReplies : Nat
deriving DecidableEq, Repr

/-- Interleaving semantics of the publish/receive handshake against an
always-ready consumer of options.ReceiveEvent (each constructor is one
internal step or one channel rendezvous of events.go lines 203-213 and
219-230). -/
inductive BusStep : BusConfig → BusConfig → Prop where
  | pubSend (e : VersionedEvent) (rest : List VersionedEvent) (cl : Nat)
      (d : List (VersionedEvent × Nat)) (a r : Nat) :
      BusStep ⟨e :: rest, LoopState.select, cl, d, a, r⟩
        ⟨rest, LoopState.deliver e r, cl, d, a, r⟩
  | deliver (q : List VersionedEvent) (e : VersionedEvent) (t cl : Nat)
      (d : List (VersionedEvent × Nat)) (a r : Nat) :
      BusStep ⟨q, LoopState.deliver e t, cl, d, a, r⟩
        ⟨q, LoopState.waitAck, cl, d ++ [(e, t)], a, r⟩
  | ack (q : List VersionedEvent) (cl : Nat)
      (d : List (VersionedEvent × Nat)) (a r : Nat) :
      BusStep ⟨q, LoopState.waitAck, cl, d, a, r⟩
        ⟨q, LoopState.select, cl, d, a + 1, r⟩
  | closeReq (q : List VersionedEvent) (cl : Nat)
      (d : List (VersionedEvent × Nat)) (a r : Nat) :
      BusStep ⟨q, LoopState.select, cl + 1, d, a, r⟩
        ⟨q, LoopState.closeReply, cl, d, a, r⟩
  | closeDone (q : List VersionedEvent) (cl : Nat)
      (d : List (VersionedEvent × Nat)) (a r : Nat) :
      BusStep ⟨q, LoopState.closeReply, cl, d, a, r⟩
        ⟨q, LoopState.select, cl, d, a, r + 1⟩

/-- Initial configuration: PublishEvents entered with batch `q0` on a
bus whose receive goroutine is at its select, with `closes` close
requests to come. -/
def busInit (q0 : List VersionedEvent) (closes : Nat) : BusConfig :=
  { pubQueue := q0, bus := LoopState.select, closesPending := closes,
    delivered := [], acked := 0, closeReplies := 0 }

/-- Handshake invariant: the original batch splits into the delivered
events, the event held by the goroutine (if any), and the unsent rest;
the acknowledgment count trails the delivery count by exactly the one
unacknowledged in-flight item when the goroutine is blocked on an
acknowledgment, and matches it otherwise. -/
def BusInv (q0 : List VersionedEvent) (c : BusConfig) : Prop :=
  match c.bus with
  | LoopState.select =>
      q0 = c.delivered.map Prod.fst ++ c.pubQueue ∧ c.acked = c.delivered.length
  | LoopState.deliver e _ =>
      q0 = c.delivered.map Prod.fst ++ e :: c.pubQueue ∧
        c.acked = c.delivered.length
  | LoopState.waitAck =>
      q0 = c.delivered.map Prod.fst ++ c.pubQueue ∧
        c.acked + 1 = c.delivered.length
  | LoopState.closeReply =>
      q0 = c.delivered.map Prod.fst ++ c.pubQueue ∧ c.acked = c.delivered.length

theorem busInv_step {q0 : List VersionedEvent} {c c2 : BusConfig}
    (hinv : BusInv q0 c) (hstep : BusStep c c2) : BusInv q0 c2 := by
  cases hstep <;> simp_all [BusInv]

theorem busInv_reachable {q0 : List VersionedEvent} {closes : Nat}
    {c : BusConfig}
    (h : Relation.ReflTransGen BusStep (busInit q0 closes) c) : BusInv q0 c := by
  induction h with
  | refl => simp [BusInv, busInit]
  | tail _ hstep ih => exact busInv_step ih hstep

/-- C8: from a publish of the batch `[e1, e2]` on a bus with an active
receive goroutine, in every reachable interleaving the delivered events
form a prefix of `[e1, e2]` (so e1 is delivered before e2), the publish
step for e2 cannot have completed before e1's acknowledgment (once the
publisher is done, at least one acknowledgment has been received), and
the goroutine only hands over a new item when every previously delivered
item has been acknowledged. -/
theorem inMemoryBus_ordered_and_backpressured (e1 e2 : VersionedEvent)
    (closes : Nat) (c : BusConfig)
    (h : Relation.ReflTransGen BusStep (busInit [e1, e2] closes) c) :
    (∃ t, c.delivered.map Prod.fst ++ t = [e1, e2]) ∧
    (c.pubQueue = [] → 1 ≤ c.acked) ∧
    (∀ e t, c.bus = LoopState.deliver e t → c.acked = c.delivered.length) := by
  have hinv := busInv_reachable h
  cases hbus : c.bus with
  | select =>
    simp only [BusInv, hbus] at hinv
    obtain ⟨heq, ha⟩ := hinv
    refine ⟨⟨c.pubQueue, heq.symm⟩, ?_, ?_⟩
    · intro hq
      rw [hq] at heq
      have hlen := congrArg List.length heq
      simp at hlen
      omega
    · intro e t het; simp at het
  | deliver e0 t0 =>
    simp only [BusInv, hbus] at hinv
    obtain ⟨heq, ha⟩ := hinv
    refine ⟨⟨e0 :: c.pubQueue, heq.symm⟩, ?_, ?_⟩
    · intro hq
      rw [hq] at heq
      have hlen := congrArg List.length heq
      simp at hlen
      omega
    · intro e t het; exact ha
  | waitAck =>
    simp only [BusInv, hbus] at hinv
    obtain ⟨heq, ha⟩ := hinv
    refine ⟨⟨c.pubQueue, heq.symm⟩, ?_, ?_⟩
    · intro hq
      rw [hq] at heq
      have hlen := congrArg List.length heq
      simp at hlen
      omega
    · intro e t het; simp at het
  | closeReply =>
    simp only [BusInv, hbus] at hinv
    obtain ⟨heq, ha⟩ := hinv
    refine ⟨⟨c.pubQueue, heq.symm⟩, ?_, ?_⟩
    · intro hq
      rw [hq] at heq
      have hlen := congrArg List.length heq
      simp at hlen
      omega
    · intro e t het; simp at het

/-- Witness for C8: the completed run of the two-event batch. -/
theorem inMemoryBus_ordered_and_backpressured_witness :
    (∃ t, (BusConfig.mk [] LoopState.select 0
        [(sampleEvent, 0), (sampleEventB, 0)] 2 0).delivered.map Prod.fst ++ t =
      [sampleEvent, sampleEventB]) ∧
    ((BusConfig.mk [] LoopState.select 0
        [(sampleEvent, 0), (sampleEventB, 0)] 2 0).pubQueue = [] →
      1 ≤ (BusConfig.mk [] LoopState.select 0
        [(sampleEvent, 0), (sampleEventB, 0)] 2 0).acked) ∧
    (∀ e t, (BusConfig.mk [] LoopState.select 0
        [(sampleEvent, 0), (sampleEventB, 0)] 2 0).bus = LoopState.deliver e t →
      (BusConfig.mk [] LoopState.select 0
        [(sampleEvent, 0), (sampleEventB, 0)] 2 0).acked =
      (BusConfig.mk [] LoopState.select 0
        [(sampleEvent, 0), (sampleEventB, 0)] 2 0).delivered.length) :=
  inMemoryBus_ordered_and_backpressured sampleEvent sampleEventB 0 _
    (Relation.ReflTransGen.head (BusStep.pubSend sampleEvent [sampleEventB] 0 [] 0 0)
      (Relation.ReflTransGen.head (BusStep.deliver [sampleEventB] sampleEvent 0 0 [] 0 0)
        (Relation.ReflTransGen.head (BusStep.ack [sampleEventB] 0 [(sampleEvent, 0)] 0 0)
          (Relation.ReflTransGen.head (BusStep.pubSend sampleEventB [] 0 [(sampleEvent, 0)] 1 0)
            (Relation.ReflTransGen.head (BusStep.deliver [] sampleEventB 0 0 [(sampleEvent, 0)] 1 0)
              (Relation.ReflTransGen.head
                (BusStep.ack [] 0 [(sampleEvent, 0), (sampleEventB, 0)] 1 0)
                Relation.ReflTransGen.refl))))))

/-- Counterexample to C2 as stated: with the one-event batch
`[sampleEvent]`, the configuration reached by the single publisher send
rendezvous has an empty publish queue — PublishEvents has returned —
while no acknowledgment has been received, because an unbuffered channel
send completes as soon as the goroutine receives the event, before the
handshake for it has finished. -/
theorem publishEvents_returns_before_last_ack_counterexample :
    ¬ (∀ c : BusConfig,
        Relation.ReflTransGen BusStep (busInit [sampleEvent] 0) c →
        c.pubQueue = [] → 1 ≤ c.acked) := by
  intro hall
  have hreach : Relation.ReflTransGen BusStep (busInit [sampleEvent] 0)
      ⟨[], LoopState.deliver sampleEvent 0, 0, [], 0, 0⟩ :=
    Relation.ReflTransGen.single (BusStep.pubSend sampleEvent [] 0 [] 0 0)
  have := hall _ hreach rfl
  simp at this

/-- C2 amended: PublishEvents returns only once every item of the batch
has been handed to the receive goroutine and every item except possibly
the last has been acknowledged; the last item's acknowledgment may still
be outstanding when the call returns. -/
theorem publishEvents_return_after_all_but_last_ack
    (q0 : List VersionedEvent) (closes : Nat) (c : BusConfig)
    (h : Relation.ReflTransGen BusStep (busInit q0 closes) c)
    (hret : c.pubQueue = []) :
    q0.length ≤ c.acked + 1 ∧
    (c.delivered.map Prod.fst = q0 ∨
      ∃ e t, c.bus = LoopState.deliver e t ∧
        c.delivered.map Prod.fst ++ [e] = q0) := by
  have hinv := busInv_reachable h
  cases hbus : c.bus with
  | select =>
    simp only [BusInv, hbus] at hinv
    obtain ⟨heq, ha⟩ := hinv
    rw [hret, List.append_nil] at heq
    have hlen := congrArg List.length heq
    simp at hlen
    exact ⟨by omega, Or.inl heq.symm⟩
  | deliver e0 t0 =>
    simp only [BusInv, hbus] at hinv
    obtain ⟨heq, ha⟩ := hinv
    rw [hret] at heq
    have hlen := congrArg List.length heq
    simp at hlen
    exact ⟨by omega, Or.inr ⟨e0, t0, rfl, by simpa using heq.symm⟩⟩
  | waitAck =>
    simp only [BusInv, hbus] at hinv
    obtain ⟨heq, ha⟩ := hinv
    rw [hret, List.append_nil] at heq
    have hlen := congrArg List.length heq
    simp at hlen
    exact ⟨by omega, Or.inl heq.symm⟩
  | closeReply =>
    simp only [BusInv, hbus] at hinv
    obtain ⟨heq, ha⟩ := hinv
    rw [hret, List.append_nil] at heq
    have hlen := congrArg List.length heq
    simp at hlen
    exact ⟨by omega, Or.inl heq.symm⟩

/-- Witness for the amended C2 at the configuration where the single
event has been handed over but not yet acknowledged. -/
theorem publishEvents_return_after_all_but_last_ack_witness :
    [sampleEvent].length ≤
      (BusConfig.mk [] (LoopState.deliver sampleEvent 0) 0 [] 0 0).acked + 1 ∧
    ((BusConfig.mk [] (LoopState.deliver sampleEvent 0) 0 [] 0 0).delivered.map
        Prod.fst = [sampleEvent] ∨
      ∃ e t, (BusConfig.mk [] (LoopState.deliver sampleEvent 0) 0 [] 0 0).bus =
          LoopState.deliver e t ∧
        (BusConfig.mk [] (LoopState.deliver sampleEvent 0) 0 [] 0 0).delivered.map
          Prod.fst ++ [e] = [sampleEvent]) :=
  publishEvents_return_after_all_but_last_ack [sampleEvent] 0 _
    (Relation.ReflTransGen.single (BusStep.pubSend sampleEvent [] 0 [] 0 0)) rfl

/-- Counterexample to C3 as stated: the receive goroutine's for loop
continues after replying to a close request, so a publish completed
after the close reply (tagged 1) is still delivered to the receive
channel. -/
theorem receiveLoop_terminates_after_close_counterexample :
    ¬ (∀ c : BusConfig,
        Relation.ReflTransGen BusStep (busInit [sampleEvent] 1) c →
        ∀ p ∈ c.delivered, p.2 = 0) := by
  intro hall
  have hreach : Relation.ReflTransGen BusStep (busInit [sampleEvent] 1)
      ⟨[], LoopState.waitAck, 0, [(sampleEvent, 1)], 0, 1⟩ :=
    Relation.ReflTransGen.head (BusStep.closeReq [sampleEvent] 0 [] 0 0)
      (Relation.ReflTransGen.head (BusStep.closeDone [sampleEvent] 0 [] 0 0)
        (Relation.ReflTransGen.head (BusStep.pubSend sampleEvent [] 0 [] 0 1)
          (Relation.ReflTransGen.head (BusStep.deliver [] sampleEvent 1 0 [] 0 1)
            Relation.ReflTransGen.refl)))
  have := hall _ hreach (sampleEvent, 1) (by simp)
  simp at this

/-- C3 amended: after servicing a close request (replying on the
supplied response signal) the receive loop does not terminate: it keeps
accepting publishes, and an event whose publish completed after the
close reply is still delivered to the receive channel. -/
theorem receiveLoop_continues_after_close (e : VersionedEvent) :
    ∃ c : BusConfig, Relation.ReflTransGen BusStep (busInit [e] 1) c ∧
      c.closeReplies = 1 ∧ (e, 1) ∈ c.delivered := by
  refine ⟨⟨[], LoopState.waitAck, 0, [(e, 1)], 0, 1⟩, ?_, rfl, by simp⟩
  exact Relation.ReflTransGen.head (BusStep.closeReq [e] 0 [] 0 0)
    (Relation.ReflTransGen.head (BusStep.closeDone [e] 0 [] 0 0)
      (Relation.ReflTransGen.head (BusStep.pubSend e [] 0 [] 0 1)
        (Relation.ReflTransGen.head (BusStep.deliver [] e 1 0 [] 0 1)
          Relation.ReflTransGen.refl)))

/-- Program counter of the Listen select loop (events.go lines 162-186)
when composed with the in-memory bus: at the select; holding a received
event (dispatching it before acknowledging); about to send the close
request on the close channel; blocked reading the close response
channel; or returned with value `r`. -/
inductive MgrState where
  | select
  | dispatching (e : VersionedEvent)
  | waitCloseSend
  | waitCloseReply
  | stopped (r : Option GoErr)
deriving DecidableEq, Repr

/-- Joint configuration of one PublishEvents caller, the in-memory
receive goroutine, and the Listen loop wired to it through the channels
created in Listen (events.go lines 150-157).  `stopPending` is true
while the external stop signal has not yet been consumed;
`dispatched` records the events handed to the dispatcher in order;
`closeRequested` records that the close request rendezvous happened. -/
structure ListenBusConfig where
  pubQueue : List VersionedEvent
  bus : LoopState
  stopPending : Bool
  mgr : MgrState
  dispatched : List VersionedEvent
  closeRequested : Bool
deriving DecidableEq, Repr

/-- Interleaving semantics of the composed system: each constructor is
one channel rendezvous (or the internal consumption of the stop signal)
between the publisher (events.go lines 208-210), the receive goroutine
(events.go lines 219-230) and the Listen loop (events.go lines
162-186). -/
inductive ListenBusStep : ListenBusConfig → ListenBusConfig → Prop where
  | pubSend (e : VersionedEvent) (rest : List VersionedEvent) (sp : Bool)
      (m : MgrState) (d : List VersionedEvent) (cr : Bool) :
      ListenBusStep ⟨e :: rest, LoopState.select, sp, m, d, cr⟩
        ⟨rest, LoopState.deliver e 0, sp, m, d, cr⟩
  | deliver (q : List VersionedEvent) (e : VersionedEvent) (t : Nat) (sp : Bool)
      (d : List VersionedEvent) (cr : Bool) :
      ListenBusStep ⟨q, LoopState.deliver e t, sp, MgrState.select, d, cr⟩
        ⟨q, LoopState.waitAck, sp, MgrState.dispatching e, d, cr⟩
  | dispatchAck (q : List VersionedEvent) (e : VersionedEvent) (sp : Bool)
      (d : List VersionedEvent) (cr : Bool) :
      ListenBusStep ⟨q, LoopState.waitAck, sp, MgrState.dispatching e, d, cr⟩
        ⟨q, LoopState.select, sp, MgrState.select, d ++ [e], cr⟩
  | stop (q : List VersionedEvent) (b : LoopState)
      (d : List VersionedEvent) (cr : Bool) :
      ListenBusStep ⟨q, b, true, MgrState.select, d, cr⟩
        ⟨q, b, false, MgrState.waitCloseSend, d, cr⟩
  | closeReq (q : List VersionedEvent) (sp : Bool)
      (d : List VersionedEvent) (cr : Bool) :
      ListenBusStep ⟨q, LoopState.select, sp, MgrState.waitCloseSend, d, cr⟩
        ⟨q, LoopState.closeReply, sp, MgrState.waitCloseReply, d, true⟩
  | closeDone (q : List VersionedEvent) (sp : Bool)
      (d : List VersionedEvent) (cr : Bool) :
      ListenBusStep ⟨q, LoopState.closeReply, sp, MgrState.waitCloseReply, d, cr⟩
        ⟨q, LoopState.select, sp, MgrState.stopped none, d, cr⟩

/-- Initial configuration of the composed system: both loops at their
selects, a publish of batch `q0` starting, the stop signal pending iff
`sp`. -/
def listenBusInit (q0 : List VersionedEvent) (sp : Bool) : ListenBusConfig :=
  { pubQueue := q0, bus := LoopState.select, stopPending := sp,
    mgr := MgrState.select, dispatched := [], closeRequested := false }

/-- Invariant carrying C7: once the manager is waiting for the close
reply the close request has been sent, and a stopped manager stopped
with value nil after having sent the close request. -/
def ListenBusInv (c : ListenBusConfig) : Prop :=
  (c.mgr = MgrState.waitCloseReply → c.closeRequested = true) ∧
  (∀ r, c.mgr = MgrState.stopped r → r = none ∧ c.closeRequested = true)

theorem listenBusInv_step {c c2 : ListenBusConfig}
    (hinv : ListenBusInv c) (hstep : ListenBusStep c c2) : ListenBusInv c2 := by
  cases hstep <;> first
    | exact hinv
    | simp_all [ListenBusInv]

theorem listenBusInv_reachable {q0 : List VersionedEvent} {sp : Bool}
    {c : ListenBusConfig}
    (h : Relation.ReflTransGen ListenBusStep (listenBusInit q0 sp) c) :
    ListenBusInv c := by
  induction h with
  | refl => simp [ListenBusInv, listenBusInit]
  | tail _ hstep ih => exact listenBusInv_step ih hstep

/-- C7: in the composed system of Listen and the in-memory bus, whenever
the Listen loop has returned it has first performed the close request
rendezvous on the receiver's close channel, and its return value is the
close handshake's reply, which the in-memory receive goroutine always
sends as nil — so Listen returns nil. -/
theorem listen_stop_returns_close_reply_nil (q0 : List VersionedEvent)
    (sp : Bool) (c : ListenBusConfig) (r : Option GoErr)
    (h : Relation.ReflTransGen ListenBusStep (listenBusInit q0 sp) c)
    (hstopped : c.mgr = MgrState.stopped r) :
    r = none ∧ c.closeRequested = true :=
  (listenBusInv_reachable h).2 r hstopped

/-- Witness for C7: the run where the stop signal is consumed and the
close handshake completes. -/
theorem listen_stop_returns_close_reply_nil_witness :
    (none : Option GoErr) = none ∧
    (ListenBusConfig.mk [] LoopState.select false (MgrState.stopped none) []
      true).closeRequested = true :=
  listen_stop_returns_close_reply_nil [] true _ none
    (Relation.ReflTransGen.head (ListenBusStep.stop [] LoopState.select [] false)
      (Relation.ReflTransGen.head (ListenBusStep.closeReq [] false [] false)
        (Relation.ReflTransGen.head (ListenBusStep.closeDone [] false [] true)
          Relation.ReflTransGen.refl)))
    rfl

end Cqrs
